import Mathlib

/-!
Verification of the envio CLI profile-store operations
(`src/bin/envio/cli.rs` and `src/bin/envio/commands.rs`).

The operations are shallowly embedded: the profiles directory is a list of
(file name, contents) pairs together with an existence flag, and every
fallible host interaction (opening a file, reading a directory entry,
creating a directory, writing) is an explicit boolean input.  A Rust
`.unwrap()` on a failed operation becomes the `RunResult.panic` outcome;
a propagated `Err` becomes `RunResult.err`.
-/

namespace Envio

/-- The `envio::error::Error` variants reachable from the embedded code
(`ProfileAlreadyExists`, `ProfileDoesNotExist`, `EmptyProfile`, `Io`,
`Error::Msg`). -/
inductive Err where
  | profileAlreadyExists : String → Err
  | profileDoesNotExist : String → Err
  | emptyProfile : String → Err
  | ioError : Err
  | msg : String → Err
deriving DecidableEq

/-- Outcome of running one CLI core operation: the Rust code either panics
(an `unwrap` on a failed host call), returns `Err(e)`, or returns `Ok(v)`. -/
inductive RunResult (α : Type) where
  | panic : RunResult α
  | err : Err → RunResult α
  | ok : α → RunResult α
deriving DecidableEq

/-! ### Rust `Path::file_stem` / `Path::extension` semantics

For a plain file name (no separators), Rust splits at the last `.` that is
not the leading character: a name with no dot, or whose only dot is the
leading one, has no extension and is its own stem. -/

/-- Split a character list at its last `.`, returning the parts before and
after it, or `none` when no `.` occurs. -/
def lastDotSplit : List Char → Option (List Char × List Char)
  | [] => none
  | c :: rest =>
    match lastDotSplit rest with
    | some (a, b) => some (c :: a, b)
    | none => if c = '.' then some ([], rest) else none

/-- Rust `file_stem`/`extension` of a plain file name: split at the last dot
occurring after the first character; a leading dot never starts an
extension. -/
def fileStemExt (s : String) : String × Option String :=
  match s.data with
  | [] => (s, none)
  | c :: rest =>
    match lastDotSplit rest with
    | some (a, b) => (String.mk (c :: a), some (String.mk b))
    | none => (s, none)

/-- `path.file_stem()` of a directory entry (total here: every non-directory
entry name has a stem). -/
def fileStem (s : String) : String := (fileStemExt s).1

/-- `path.extension()` of a directory entry. -/
def fileExt (s : String) : Option String := (fileStemExt s).2

/-- Whether a file stem begins with `'.'` (`profile_name.starts_with('.')`). -/
def startsWithDot (s : String) : Bool :=
  match s.data with
  | '.' :: _ => true
  | _ => false

/-! ### The profiles directory -/

/-- The profiles directory `<config_dir>/profiles`: whether it exists, and
its files as (file name, contents) pairs. -/
structure FS where
  dirExists : Bool
  files : List (String × String)
deriving DecidableEq

/-- Modelled from the spec: `Profile::does_exist(name)` is code of the envio
library crate, absent from this repository's sources; per the spec, "A
profile file exists ⇔ `Profile::exists(name)` returns true", where the
profile's file is `<profiles>/<name>.env`. -/
def doesExist (fs : FS) (name : String) : Bool :=
  decide ((name ++ ".env") ∈ fs.files.map Prod.fst)

/-- Modelled from the spec: `Profile::push_changes` (envio library crate,
absent from the sources) persists the profile by writing its encoded
envelope to `<profiles>/<name>.env`, replacing the file's contents. The
encoding itself is kept abstract as a parameter. -/
def setFile (files : List (String × String)) (fname c : String) :
    List (String × String) :=
  if fname ∈ files.map Prod.fst then
    files.map (fun f => if f.1 = fname then (fname, c) else f)
  else
    (fname, c) :: files

/-! ### `list_profiles` (cli.rs lines 218-265)

Inputs: whether the directory exists, and the outcome of `read_dir`
(`none` = `read_dir` itself failed, whose `unwrap` panics; each entry is
`none` when reading that entry failed, whose `unwrap` panics). -/

/-- The entry loop of `list_profiles`: skip entries with no extension, with
an extension other than `env`, or whose stem starts with `.`; push the
remaining stems in directory order.  An unreadable entry is `unwrap`ped,
i.e. panics. -/
def collectProfiles : List (Option String) → RunResult (List String)
  | [] => .ok []
  | none :: _ => .panic
  | some n :: rest =>
    match fileExt n with
    | none => collectProfiles rest
    | some ext =>
      if ext ≠ "env" then collectProfiles rest
      else if startsWithDot (fileStem n) then collectProfiles rest
      else
        match collectProfiles rest with
        | .ok l => .ok (fileStem n :: l)
        | .err e => .err e
        | .panic => .panic

/-- `list_profiles`: error out when the profiles directory does not exist,
panic when `read_dir` fails, otherwise run the entry loop.  The embedded
result is the vector `profiles` the Rust code builds and prints. -/
def listProfilesRun (dirExists : Bool) (readDir : Option (List (Option String))) :
    RunResult (List String) :=
  if dirExists then
    match readDir with
    | none => .panic
    | some entries => collectProfiles entries
  else
    .err (.msg "profiles directory does not exist")

/-- The filter `list_profiles` applies to an entry name. -/
def keepEntry (n : String) : Bool :=
  match fileExt n with
  | none => false
  | some ext => decide (ext = "env") && !startsWithDot (fileStem n)

/-! ### In-memory profiles -/

/-- Modelled from the spec: `envio::Profile` and its `EnvVec` live in the
envio library crate, absent from this repository's sources; per the spec a
profile binds a name to an ordered sequence of named variables with unique
names.  Only the fields the CLI code reads (`name`, `envs`) are modelled. -/
structure Profile where
  name : String
  envs : List (String × String)
deriving DecidableEq

/-- Modelled from the spec: `EnvVec` lookup by name (`profile.envs.get`),
"lookup by name" over the insertion-ordered sequence. -/
def lookupEnv (es : List (String × String)) (k : String) : Option String :=
  match es with
  | [] => none
  | (a, b) :: rest => if a = k then some b else lookupEnv rest k

/-! ### `export_envs` (cli.rs lines 90-137) -/

/-- State after `export_envs`: the destination file's contents (`none` when
the file was never created) and the returned value. -/
structure ExportOut where
  disk : Option String
  result : RunResult Unit
deriving DecidableEq

/-- The buffer loop of `export_envs`:
`buffer = buffer + key + "=" + envs.get(key).unwrap() + "\n"`. -/
def exportBuffer (es : List (String × String)) (keys : List String) : String :=
  keys.foldl (fun b k => b ++ k ++ "=" ++ (lookupEnv es k).getD "" ++ "\n") ""

/-- `export_envs`: open the destination with `create + truncate` (its
`unwrap` panics when the open fails), then error on an empty profile, then
filter the keys by a non-empty selection (erroring when nothing matches),
then write the buffer. -/
def exportEnvs (openFails : Bool) (p : Profile) (sel : Option (List String)) :
    ExportOut :=
  if openFails then ⟨none, .panic⟩
  else if p.envs.isEmpty then ⟨some "", .err (.emptyProfile p.name)⟩
  else
    match sel with
    | none => ⟨some (exportBuffer p.envs (p.envs.map Prod.fst)), .ok ()⟩
    | some s =>
      let keys :=
        if s.isEmpty then p.envs.map Prod.fst
        else (p.envs.map Prod.fst).filter (fun k => decide (k ∈ s))
      if keys.isEmpty then ⟨some "", .err (.msg "No envs to export")⟩
      else ⟨some (exportBuffer p.envs keys), .ok ()⟩

/-! ### `create_profile` (cli.rs lines 34-65) -/

/-- `create_profile`: error when the profile exists; otherwise create the
profiles directory when missing (`create_dir_all(..).unwrap()` panics on
failure) and persist the new profile via `push_changes`.  `encode` abstracts
the envelope the library's `push_changes` writes. -/
def createProfile (encode : List (String × String) → String) (mkdirFails : Bool)
    (fs : FS) (name : String) (envs : Option (List (String × String))) :
    FS × RunResult Unit :=
  if doesExist fs name then (fs, .err (.profileAlreadyExists name))
  else
    let es := envs.getD []
    if fs.dirExists then
      (⟨true, setFile fs.files (name ++ ".env") (encode es)⟩, .ok ())
    else if mkdirFails then (fs, .panic)
    else (⟨true, setFile fs.files (name ++ ".env") (encode es)⟩, .ok ())

/-! ### `delete_profile` (cli.rs lines 194-208) -/

/-- `delete_profile`: error with `ProfileDoesNotExist` when the profile is
absent, propagate `Error::Io` when `remove_file` fails, otherwise remove
exactly `<profiles>/<name>.env`. -/
def deleteProfile (removeFails : Bool) (fs : FS) (name : String) :
    FS × RunResult Unit :=
  if doesExist fs name then
    if removeFails then (fs, .err .ioError)
    else
      (⟨fs.dirExists, fs.files.filter (fun f => decide (f.1 ≠ name ++ ".env"))⟩,
        .ok ())
  else (fs, .err (.profileDoesNotExist name))

/-! ### `import_profile` (cli.rs lines 314-349) -/

/-- Overwrite-from-the-start semantics of `write_all` on a file opened
without `truncate`: the old tail beyond the new contents survives. -/
def overwriteKeep (newC old : String) : String :=
  String.mk (newC.data ++ old.data.drop newC.data.length)

/-- Ensure the destination file exists (`OpenOptions::create(true)`),
leaving existing contents in place. -/
def ensureFile (files : List (String × String)) (fname : String) :
    List (String × String) :=
  if fname ∈ files.map Prod.fst then files else (fname, "") :: files

/-- Write `c` into `fname` from the start without truncating. -/
def writeNoTrunc (files : List (String × String)) (fname c : String) :
    List (String × String) :=
  files.map (fun f => if f.1 = fname then (f.1, overwriteKeep c f.2) else f)

/-- `import_profile`: error when the source path does not exist; panic when
opening/reading the source fails (`unwrap`); panic when opening the
destination fails — in particular whenever the profiles directory is
missing, since `OpenOptions::create` does not create parent directories;
propagate `write_all` failures as errors. -/
def importProfile (path : String) (srcExists srcReadable writeFails : Bool)
    (contents : String) (fs : FS) (name : String) : FS × RunResult Unit :=
  if !srcExists then
    (fs, .err (.msg ("File `" ++ path ++ "` does not exist")))
  else if !srcReadable then (fs, .panic)
  else if !fs.dirExists then (fs, .panic)
  else
    let files1 := ensureFile fs.files (name ++ ".env")
    if writeFails then (⟨true, files1⟩, .err .ioError)
    else (⟨true, writeNoTrunc files1 (name ++ ".env") contents⟩, .ok ())

/-! ### The `add` subcommand (commands.rs lines 289-360) -/

/-- Rust `env.splitn(2, '=')` after an `env.contains('=')` check: split at
the first `=`, or `none` when there is none. -/
def splitAtEq : List Char → Option (List Char × List Char)
  | [] => none
  | c :: rest =>
    if c = '=' then some ([], rest)
    else (splitAtEq rest).map (fun p => (c :: p.1, p.2))

/-- String form of `splitAtEq`. -/
def splitEq (s : String) : Option (String × String) :=
  (splitAtEq s.data).map (fun p => (String.mk p.1, String.mk p.2))

/-- The key an `add`/`update` argument denotes: the part before the first
`=`, or the whole argument when it has none (its value is then prompted). -/
def argKey (arg : String) : String :=
  match splitEq arg with
  | some (k, _) => k
  | none => arg

/-- Outcome of the `add` argument loop: an early return on a duplicate
variable (before `push_changes`), or the final variable set that is pushed. -/
inductive AddOutcome where
  | duplicate : String → AddOutcome
  | pushed : List (String × String) → AddOutcome
deriving DecidableEq

/-- The argument loop of `Command::run` for `Add`: for each argument, take
its key (prompting for a value when the argument has no `=`), return early
when the key is already present (`profile.envs.contains_key`), otherwise
`insert_env` appends the pair. -/
def addLoop (prompt : String → String) :
    List String → List (String × String) → AddOutcome
  | [], envs => .pushed envs
  | arg :: rest, envs =>
    match splitEq arg with
    | some (k, v) =>
      if k ∈ envs.map Prod.fst then .duplicate k
      else addLoop prompt rest (envs ++ [(k, v)])
    | none =>
      if arg ∈ envs.map Prod.fst then .duplicate arg
      else addLoop prompt rest (envs ++ [(arg, prompt arg)])

/-- `Command::run` for `Add` on a loaded profile, tracking the on-disk
profile file: on a duplicate the run returns before `push_changes` and the
file is untouched; otherwise `push_changes` rewrites it with the encoded
final variable set. -/
def runAdd (prompt : String → String) (encode : List (String × String) → String)
    (disk : String) (envs0 : List (String × String)) (args : List String) :
    String × AddOutcome :=
  match addLoop prompt args envs0 with
  | .duplicate k => (disk, .duplicate k)
  | .pushed es => (encode es, .pushed es)

/-! ### The `remove` subcommand (commands.rs lines 455-480) -/

/-- Modelled from the spec: `Profile::remove_env` (envio library crate,
absent from the sources) removes the named variable, compacting the
sequence.  `removeEnvAll` folds it over the requested names. -/
def removeEnvAll (es : List (String × String)) (ks : List String) :
    List (String × String) :=
  ks.foldl (fun acc k => acc.filter (fun e => decide (e.1 ≠ k))) es

/-- Outcome of `Command::run` for `Remove`: early return when the profile
does not exist, whole-file deletion via `delete_profile`, or variable
removal followed by `push_changes`. -/
inductive RemoveOutcome where
  | noProfile : RemoveOutcome
  | deleted : FS × RunResult Unit → RemoveOutcome
  | pushed : FS → List (String × String) → RemoveOutcome
deriving DecidableEq

/-- `Command::run` for `Remove`: when a non-empty variable list is supplied
the loaded profile drops those variables and is re-persisted; otherwise the
whole profile file is handed to `delete_profile`. -/
def runRemove (removeFails : Bool) (fs : FS) (name : String)
    (loaded : List (String × String))
    (encode : List (String × String) → String)
    (envsArg : Option (List String)) : RemoveOutcome :=
  if doesExist fs name then
    match envsArg with
    | some l =>
      if l.isEmpty then .deleted (deleteProfile removeFails fs name)
      else
        let es := removeEnvAll loaded l
        .pushed ⟨fs.dirExists, setFile fs.files (name ++ ".env") (encode es)⟩ es
    | none => .deleted (deleteProfile removeFails fs name)
  else .noProfile

lemma collectProfiles_map_some (entries : List String) :
    collectProfiles (entries.map some) =
      .ok ((entries.filter keepEntry).map fileStem) := by
  induction entries with
  | nil => rfl
  | cons n rest ih =>
    simp only [List.map_cons, collectProfiles]
    cases h : fileExt n with
    | none => simp [List.filter_cons, keepEntry, h, ih]
    | some ext =>
      by_cases he : ext = "env"
      · subst he
        by_cases hd : startsWithDot (fileStem n) = true
        · simp [List.filter_cons, keepEntry, h, hd, ih]
        · simp only [Bool.not_eq_true] at hd
          simp [List.filter_cons, keepEntry, h, hd, ih]
      · simp [List.filter_cons, keepEntry, h, he, ih]

lemma collectProfiles_panic_iff (entries : List (Option String)) :
    collectProfiles entries = .panic ↔ none ∈ entries := by
  induction entries with
  | nil => simp [collectProfiles]
  | cons e rest ih =>
    cases e with
    | none => simp [collectProfiles]
    | some n =>
      simp only [collectProfiles, List.mem_cons]
      cases h : fileExt n with
      | none => simp [ih]
      | some ext =>
        by_cases he : ext = "env"
        · subst he
          by_cases hd : startsWithDot (fileStem n) = true
          · simp [hd, ih]
          · simp only [Bool.not_eq_true] at hd
            rcases hc : collectProfiles rest with _ | e' | l <;>
              simp_all [hd]
        · simp [he, ih]

lemma keepEntry_iff (n : String) :
    keepEntry n = true ↔
      (fileExt n = some "env" ∧ startsWithDot (fileStem n) = false) := by
  cases h : fileExt n with
  | none => simp [keepEntry, h]
  | some e => simp [keepEntry, h]

/-- Claim C1: for every profiles directory, `list_profiles` returns exactly
the file stems of the directory entries whose extension is `.env` and whose
stem does not begin with `.`; entries with any other extension, with no
extension, or with a dot-leading stem never appear in the result. -/
theorem list_profiles_exact (entries : List String) :
    ∃ l, listProfilesRun true (some (entries.map some)) = .ok l ∧
      l = (entries.filter keepEntry).map fileStem ∧
      ∀ s, s ∈ l ↔ ∃ n, n ∈ entries ∧ fileExt n = some "env" ∧
        startsWithDot (fileStem n) = false ∧ fileStem n = s := by
  refine ⟨(entries.filter keepEntry).map fileStem, ?_, rfl, ?_⟩
  · simpa [listProfilesRun] using collectProfiles_map_some entries
  · intro s
    simp only [List.mem_map, List.mem_filter]
    constructor
    · rintro ⟨n, ⟨hn, hk⟩, rfl⟩
      obtain ⟨he, hd⟩ := (keepEntry_iff n).mp hk
      exact ⟨n, hn, he, hd, rfl⟩
    · rintro ⟨n, hn, he, hd, rfl⟩
      exact ⟨n, ⟨hn, (keepEntry_iff n).mpr ⟨he, hd⟩⟩, rfl⟩

/-- Claim C4: whenever the profiles directory does not exist,
`list_profiles` returns an error (an `Error::Msg` failure, fatal to the
operation but not to the process), never an empty list. -/
theorem list_profiles_missing_dir (readDir : Option (List (Option String))) :
    listProfilesRun false readDir =
      .err (.msg "profiles directory does not exist") ∧
    ∀ l, listProfilesRun false readDir ≠ .ok l := by
  refine ⟨rfl, ?_⟩
  intro l h
  simp [listProfilesRun] at h

theorem list_profiles_missing_dir_witness :
    listProfilesRun false (some [some "dev.env"]) =
      .err (.msg "profiles directory does not exist") ∧
    listProfilesRun false (some [some "dev.env"]) ≠ .ok [] :=
  ⟨(list_profiles_missing_dir (some [some "dev.env"])).1,
   (list_profiles_missing_dir (some [some "dev.env"])).2 []⟩

/-- Claim C7: for every name for which a profile already exists,
`create_profile` fails with `ProfileAlreadyExists` and writes nothing to
disk; the filesystem state, the existing profile file included, is
unchanged. -/
theorem create_profile_duplicate (encode : List (String × String) → String)
    (mkdirFails : Bool) (fs : FS) (name : String)
    (envs : Option (List (String × String)))
    (h : doesExist fs name = true) :
    createProfile encode mkdirFails fs name envs =
      (fs, .err (.profileAlreadyExists name)) := by
  simp [createProfile, h]

theorem create_profile_duplicate_witness :
    createProfile (fun _ => "") false ⟨true, [("dev.env", "X")]⟩ "dev" none =
      (⟨true, [("dev.env", "X")]⟩, .err (.profileAlreadyExists "dev")) :=
  create_profile_duplicate (fun _ => "") false ⟨true, [("dev.env", "X")]⟩ "dev"
    none (by decide)

/-- Claim C8: `delete_profile` fails with `ProfileDoesNotExist` when no
profile of that name exists, fails with `Io` when the file removal fails,
and on success removes only `<profiles>/<name>.env`, leaving every other
file of the profiles directory untouched. -/
theorem delete_profile_spec (removeFails : Bool) (fs : FS) (name : String) :
    (doesExist fs name = false →
      deleteProfile removeFails fs name =
        (fs, .err (.profileDoesNotExist name))) ∧
    (doesExist fs name = true → removeFails = true →
      deleteProfile removeFails fs name = (fs, .err .ioError)) ∧
    (doesExist fs name = true → removeFails = false →
      (deleteProfile removeFails fs name).2 = .ok () ∧
      (deleteProfile removeFails fs name).1 =
        ⟨fs.dirExists,
         fs.files.filter (fun f => decide (f.1 ≠ name ++ ".env"))⟩ ∧
      ∀ f ∈ fs.files, f.1 ≠ name ++ ".env" →
        f ∈ (deleteProfile removeFails fs name).1.files) := by
  refine ⟨?_, ?_, ?_⟩
  · intro h; simp [deleteProfile, h]
  · intro h hr; simp [deleteProfile, h, hr]
  · intro h hr
    refine ⟨by simp [deleteProfile, h, hr], by simp [deleteProfile, h, hr], ?_⟩
    intro f hf hne
    simp [deleteProfile, h, hr, List.mem_filter, hf, hne]

theorem delete_profile_spec_witness :
    (deleteProfile false ⟨true, [("a.env", "X"), ("b.txt", "Y")]⟩ "a").2 =
      .ok () ∧
    ("b.txt", "Y") ∈
      (deleteProfile false ⟨true, [("a.env", "X"), ("b.txt", "Y")]⟩ "a").1.files := by
  have h :=
    (delete_profile_spec false ⟨true, [("a.env", "X"), ("b.txt", "Y")]⟩ "a").2.2
      (by decide) rfl
  exact ⟨h.1, h.2.2 ("b.txt", "Y") (by decide) (by decide)⟩



lemma exportBuffer_eq_join (es : List (String × String)) (keys : List String) :
    exportBuffer es keys =
      String.join
        (keys.map fun k => k ++ "=" ++ (lookupEnv es k).getD "" ++ "\n") := by
  simp [exportBuffer, String.join, List.foldl_map, String.append_assoc]

/-- Claim C2: for every loaded profile with at least one variable and every
selection of variable names matching at least one variable, `export_envs`
succeeds and writes a plaintext file whose contents are exactly one
`KEY=VALUE` line per selected variable, each terminated by a newline, with
no envelope and no metadata comments. -/
theorem export_selected_exact (p : Profile) (sel : List String)
    (hne : p.envs ≠ [])
    (hm : (p.envs.map Prod.fst).filter (fun k => decide (k ∈ sel)) ≠ []) :
    exportEnvs false p (some sel) =
      ⟨some (String.join
          (((p.envs.map Prod.fst).filter (fun k => decide (k ∈ sel))).map
            (fun k => k ++ "=" ++ (lookupEnv p.envs k).getD "" ++ "\n"))),
        .ok ()⟩ := by
  have hsel : sel.isEmpty = false := by
    cases sel with
    | nil => exact absurd (by simp) hm
    | cons a l => rfl
  have hpe : p.envs.isEmpty = false := by
    cases hp : p.envs with
    | nil => exact absurd hp hne
    | cons a l => rfl
  simp only [exportEnvs, Bool.false_eq_true, if_false, hpe, hsel,
    exportBuffer_eq_join]
  simp [List.isEmpty_iff, hm]

/-- witness for C2, instantiating spec scenario S5: exporting only
`DATABASE_URL` from a profile where it equals `postgres://x` yields a file
whose contents are exactly `DATABASE_URL=postgres://x\n`. -/
theorem export_selected_exact_witness :
    exportEnvs false ⟨"dev", [("DATABASE_URL", "postgres://x")]⟩
        (some ["DATABASE_URL"]) =
      ⟨some "DATABASE_URL=postgres://x\n", .ok ()⟩ := by
  have h := export_selected_exact ⟨"dev", [("DATABASE_URL", "postgres://x")]⟩
    ["DATABASE_URL"] (by decide) (by decide)
  exact h.trans (by decide)

lemma exportEnvs_ok_or_err (p : Profile) (sel : Option (List String)) :
    (∃ s, exportEnvs false p sel = ⟨some s, .ok ()⟩) ∨
    (∃ e, exportEnvs false p sel = ⟨some "", .err e⟩) := by
  cases hp : p.envs.isEmpty with
  | true => exact Or.inr ⟨.emptyProfile p.name, by simp [exportEnvs, hp]⟩
  | false =>
    cases sel with
    | none =>
      exact Or.inl ⟨exportBuffer p.envs (p.envs.map Prod.fst),
        by simp [exportEnvs, hp]⟩
    | some s =>
      simp only [exportEnvs, Bool.false_eq_true, if_false, hp]
      split <;> split
      all_goals first
        | exact Or.inr ⟨_, rfl⟩
        | exact Or.inl ⟨_, rfl⟩

/-- Claim C9: `export_envs` creates and truncates the destination file
before any validation, so whenever it returns an error the destination file
has already been created and emptied: when the open succeeds the file
exists, and every error return leaves it with empty contents. -/
theorem export_error_leaves_truncated_file (openFails : Bool) (p : Profile)
    (sel : Option (List String)) :
    (exportEnvs false p sel).disk.isSome = true ∧
    ∀ e, (exportEnvs openFails p sel).result = .err e →
      (exportEnvs openFails p sel).disk = some "" := by
  constructor
  · rcases exportEnvs_ok_or_err p sel with ⟨s, hs⟩ | ⟨e, he⟩
    · simp [hs]
    · simp [he]
  · intro e h
    cases openFails with
    | true => simp [exportEnvs] at h
    | false =>
      rcases exportEnvs_ok_or_err p sel with ⟨s, hs⟩ | ⟨e2, he2⟩
      · rw [hs] at h; simp at h
      · rw [he2]

theorem export_error_leaves_truncated_file_witness :
    (exportEnvs false ⟨"dev", []⟩ none).result = .err (.emptyProfile "dev") ∧
    (exportEnvs false ⟨"dev", []⟩ none).disk = some "" :=
  ⟨by decide,
   (export_error_leaves_truncated_file false ⟨"dev", []⟩ none).2
     (.emptyProfile "dev") (by decide)⟩



lemma addLoop_duplicate (prompt : String → String) :
    ∀ (args : List String) (envs : List (String × String)),
      (∃ a ∈ args, argKey a ∈ envs.map Prod.fst) →
      ∃ k, addLoop prompt args envs = .duplicate k := by
  intro args
  induction args with
  | nil => intro envs h; simp at h
  | cons a rest ih =>
    intro envs h
    cases hs : splitEq a with
    | some kv =>
      obtain ⟨k, v⟩ := kv
      have hak : argKey a = k := by simp [argKey, hs]
      by_cases hk : k ∈ envs.map Prod.fst
      · exact ⟨k, by simp [addLoop, hs, hk]⟩
      · have h2 : ∃ a' ∈ rest, argKey a' ∈ (envs ++ [(k, v)]).map Prod.fst := by
          rcases h with ⟨a', ha', hmem⟩
          rcases List.mem_cons.mp ha' with rfl | ha'
          · rw [hak] at hmem; exact absurd hmem hk
          · refine ⟨a', ha', ?_⟩
            rw [List.map_append, List.mem_append]
            exact Or.inl hmem
        obtain ⟨k2, hk2⟩ := ih (envs ++ [(k, v)]) h2
        exact ⟨k2, by simp [addLoop, hs, hk, hk2]⟩
    | none =>
      have hak : argKey a = a := by simp [argKey, hs]
      by_cases hk : a ∈ envs.map Prod.fst
      · exact ⟨a, by simp [addLoop, hs, hk]⟩
      · have h2 : ∃ a' ∈ rest,
            argKey a' ∈ (envs ++ [(a, prompt a)]).map Prod.fst := by
          rcases h with ⟨a', ha', hmem⟩
          rcases List.mem_cons.mp ha' with rfl | ha'
          · rw [hak] at hmem; exact absurd hmem hk
          · refine ⟨a', ha', ?_⟩
            rw [List.map_append, List.mem_append]
            exact Or.inl hmem
        obtain ⟨k2, hk2⟩ := ih (envs ++ [(a, prompt a)]) h2
        exact ⟨k2, by simp [addLoop, hs, hk, hk2]⟩

/-- Claim C6: inserting a variable whose name is already present in the
profile via the `add` subcommand fails with a duplicate-variable error, and
the run returns before `push_changes`: the on-disk profile file is
byte-identical to its previous state. -/
theorem add_duplicate_not_persisted (prompt : String → String)
    (encode : List (String × String) → String) (disk : String)
    (envs0 : List (String × String)) (args : List String)
    (h : ∃ a ∈ args, argKey a ∈ envs0.map Prod.fst) :
    ∃ k, runAdd prompt encode disk envs0 args = (disk, .duplicate k) := by
  obtain ⟨k, hk⟩ := addLoop_duplicate prompt args envs0 h
  exact ⟨k, by simp [runAdd, hk]⟩

theorem add_duplicate_not_persisted_witness :
    ∃ k, runAdd (fun _ => "v") (fun _ => "ENC") "OLDBYTES" [("A", "1")]
        ["A=2"] = ("OLDBYTES", .duplicate k) :=
  add_duplicate_not_persisted (fun _ => "v") (fun _ => "ENC") "OLDBYTES"
    [("A", "1")] ["A=2"] ⟨"A=2", by decide, by decide⟩

/-- Claim C10: the `remove` subcommand with no variable names (absent or
empty list) deletes the entire profile file via `delete_profile`, rather
than failing or removing nothing; variables are removed individually and
the profile re-persisted only when at least one name is supplied. -/
theorem remove_no_vars_deletes_profile (removeFails : Bool) (fs : FS)
    (name : String) (loaded : List (String × String))
    (encode : List (String × String) → String)
    (envsArg : Option (List String))
    (hex : doesExist fs name = true) :
    ((envsArg = none ∨ envsArg = some []) →
      runRemove removeFails fs name loaded encode envsArg =
        .deleted (deleteProfile removeFails fs name)) ∧
    (removeFails = false →
      deleteProfile removeFails fs name =
        (⟨fs.dirExists,
          fs.files.filter (fun f => decide (f.1 ≠ name ++ ".env"))⟩, .ok ())) ∧
    (∀ l, envsArg = some l → l ≠ [] →
      runRemove removeFails fs name loaded encode envsArg =
        .pushed
          ⟨fs.dirExists,
           setFile fs.files (name ++ ".env") (encode (removeEnvAll loaded l))⟩
          (removeEnvAll loaded l)) := by
  refine ⟨?_, ?_, ?_⟩
  · rintro (rfl | rfl)
    · simp [runRemove, hex]
    · simp [runRemove, hex]
  · intro hr; subst hr; simp [deleteProfile, hex]
  · rintro l rfl hl
    have hle : l.isEmpty = false := by
      cases l with
      | nil => exact absurd rfl hl
      | cons a t => rfl
    simp [runRemove, hex, hle]

theorem remove_no_vars_deletes_profile_witness :
    runRemove false ⟨true, [("dev.env", "X"), ("b.txt", "Y")]⟩ "dev"
        [("A", "1"), ("B", "2")] (fun _ => "ENC") none =
      .deleted (⟨true, [("b.txt", "Y")]⟩, .ok ()) ∧
    runRemove false ⟨true, [("dev.env", "X"), ("b.txt", "Y")]⟩ "dev"
        [("A", "1"), ("B", "2")] (fun _ => "ENC") (some ["A"]) =
      .pushed ⟨true, [("dev.env", "ENC"), ("b.txt", "Y")]⟩ [("B", "2")] := by
  have h1 := remove_no_vars_deletes_profile false
    ⟨true, [("dev.env", "X"), ("b.txt", "Y")]⟩ "dev" [("A", "1"), ("B", "2")]
    (fun _ => "ENC") none (by decide)
  have h2 := remove_no_vars_deletes_profile false
    ⟨true, [("dev.env", "X"), ("b.txt", "Y")]⟩ "dev" [("A", "1"), ("B", "2")]
    (fun _ => "ENC") (some ["A"]) (by decide)
  refine ⟨(h1.1 (Or.inl rfl)).trans ?_, (h2.2.2 ["A"] rfl (by decide)).trans ?_⟩
  · rw [h1.2.1 rfl]; decide
  · decide



/-- Claim C5 counterexample: importing a profile while the profiles
directory is missing does not create the directory and does not succeed:
the destination open fails (`create(true)` does not create parent
directories) and its `unwrap` panics, leaving the filesystem unchanged. -/
theorem import_missing_dir_cex :
    importProfile "/tmp/src.env" true true false "A=1\n" ⟨false, []⟩ "dev" =
      (⟨false, []⟩, .panic) := by decide

/-- Claim C5 amended: of the two write operations, only `create_profile`
creates the missing profiles directory first and then succeeds;
`import_profile` never creates the directory — when it is missing, the
destination open fails and the process aborts by panic. -/
theorem lazy_dir_creation_amended (encode : List (String × String) → String)
    (path contents : String) (fs : FS) (name : String)
    (envs : Option (List (String × String)))
    (hdir : fs.dirExists = false) (hnew : doesExist fs name = false) :
    createProfile encode false fs name envs =
      (⟨true, setFile fs.files (name ++ ".env") (encode (envs.getD []))⟩,
        .ok ()) ∧
    importProfile path true true false contents fs name = (fs, .panic) := by
  constructor
  · simp [createProfile, hnew, hdir]
  · simp [importProfile, hdir]

theorem lazy_dir_creation_amended_witness :
    createProfile (fun _ => "ENC") false ⟨false, []⟩ "dev" none =
      (⟨true, [("dev.env", "ENC")]⟩, .ok ()) ∧
    importProfile "/tmp/other.env" true true false "A=1\n" ⟨false, []⟩ "dev" =
      (⟨false, []⟩, .panic) := by
  have h := lazy_dir_creation_amended (fun _ => "ENC") "/tmp/other.env" "A=1\n"
    ⟨false, []⟩ "dev" none rfl (by decide)
  exact ⟨h.1.trans (by decide), h.2⟩

/-- Claim C3 counterexample: `export_envs` on an unopenable output file
aborts (the `unwrap` of the failed open panics) instead of surfacing the
failure to its caller as a tagged `Result` value. -/
theorem export_unopenable_aborts_cex :
    (exportEnvs true ⟨"dev", [("A", "1")]⟩ none).result = .panic := by decide

/-- Claim C3 amended: each core operation surfaces its checked errors as
tagged `Result` values, but filesystem failures at `unwrap` sites abort the
process by panic, and exactly these do: `export_envs` panics iff the
destination open fails; `list_profiles` panics iff `read_dir` or reading
some directory entry fails; `create_profile` panics iff the directory
creation fails (reached when the profile is new and the directory is
missing); `import_profile` panics iff the source exists but reading it
fails, or the profiles directory is missing so the destination open
fails. -/
theorem core_abort_characterization :
    (∀ (openFails : Bool) (p : Profile) (sel : Option (List String)),
      (exportEnvs openFails p sel).result = .panic ↔ openFails = true) ∧
    (∀ (d : Bool) (rd : Option (List (Option String))),
      listProfilesRun d rd = .panic ↔
        (d = true ∧ (rd = none ∨ ∃ es, rd = some es ∧ none ∈ es))) ∧
    (∀ (encode : List (String × String) → String) (mk : Bool) (fs : FS)
        (name : String) (envs : Option (List (String × String))),
      (createProfile encode mk fs name envs).2 = .panic ↔
        (doesExist fs name = false ∧ fs.dirExists = false ∧ mk = true)) ∧
    (∀ (path : String) (se sr w : Bool) (c : String) (fs : FS) (name : String),
      (importProfile path se sr w c fs name).2 = .panic ↔
        (se = true ∧ (sr = false ∨ fs.dirExists = false))) := by
  refine ⟨?_, ?_, ?_, ?_⟩
  · intro openFails p sel
    cases openFails with
    | true => simp [exportEnvs]
    | false =>
      simp only [Bool.false_eq_true, iff_false]
      rcases exportEnvs_ok_or_err p sel with ⟨s, hs⟩ | ⟨e, he⟩
      · simp [hs]
      · simp [he]
  · intro d rd
    cases d with
    | false => simp [listProfilesRun]
    | true =>
      cases rd with
      | none => simp [listProfilesRun]
      | some es =>
        simp [listProfilesRun, collectProfiles_panic_iff]
  · intro encode mk fs name envs
    by_cases he : doesExist fs name
    · simp [createProfile, he]
    · cases hd : fs.dirExists with
      | true => simp [createProfile, he, hd]
      | false =>
        cases mk with
        | true => simp [createProfile, he, hd]
        | false => simp [createProfile, he, hd]
  · intro path se sr w c fs name
    cases se with
    | false => simp [importProfile]
    | true =>
      cases sr with
      | false => simp [importProfile]
      | true =>
        cases hd : fs.dirExists with
        | false => simp [importProfile, hd]
        | true =>
          cases w with
          | true => simp [importProfile, hd]
          | false => simp [importProfile, hd]

theorem core_abort_characterization_witness :
    (createProfile (fun _ => "ENC") true ⟨false, []⟩ "dev" none).2 = .panic ∧
    (exportEnvs false ⟨"dev", [("A", "1")]⟩ none).result ≠ .panic := by
  constructor
  · exact (core_abort_characterization.2.2.1 (fun _ => "ENC") true ⟨false, []⟩
      "dev" none).mpr ⟨by decide, rfl, rfl⟩
  · intro h
    have := (core_abort_characterization.1 false ⟨"dev", [("A", "1")]⟩ none).mp h
    simp at this

end Envio
